import Mathlib

/-!
Verification of the in-memory Redis-compatible server
(repository codecrafters-redis-rust) against its specification.

The Rust sources are shallowly embedded: byte strings (`Vec<u8>`, `String`)
become `List Nat` of byte values, `u64`/`i64` become `Nat`/`Int` with explicit
range checks where the source parses or bounds them, `HashMap`/`BTreeMap`
become association lists (sorted for the B-tree maps), fallible code returns
`Option`/`Except`, and a `none` at the outermost level of an operation marks a
Rust panic (an out-of-bounds slice or a failed `unwrap`).  Wall-clock reads
(`Instant::now()`, `SystemTime::now()`) become explicit `now` parameters.
-/

set_option maxHeartbeats 1000000

namespace RedisModel

/-- Byte strings: each element is one byte value (0 ≤ b < 256 for real data). -/
abbrev Bytes := List Nat

/-- ASCII bytes of a Lean string literal (used only for ASCII literals,
where UTF-8 bytes and code points coincide, as in the Rust sources). -/
def strBytes (s : String) : Bytes := s.data.map Char.toNat

/-- Lexicographic strict order on byte strings: the order `Ord` gives
`&[u8]` / `String` in Rust (byte-wise lexicographic). -/
def lexLt : Bytes → Bytes → Bool
  | [], [] => false
  | [], _ :: _ => true
  | _ :: _, [] => false
  | a :: as, b :: bs => if a < b then true else if b < a then false else lexLt as bs

/-- Association-list lookup: `HashMap::get` (also used for the keyspace map). -/
def alGet {κ α : Type} [DecidableEq κ] (k : κ) : List (κ × α) → Option α
  | [] => none
  | (k', v) :: rest => if k = k' then some v else alGet k rest

/-- Association-list insert-or-replace: `HashMap::insert`. -/
def alInsert {κ α : Type} [DecidableEq κ] (k : κ) (v : α) : List (κ × α) → List (κ × α)
  | [] => [(k, v)]
  | (k', v') :: rest => if k = k' then (k, v) :: rest else (k', v') :: alInsert k v rest

/-- Rust `BTreeSet<String>::insert`: sorted insert, returns whether the member was new. -/
def setInsert (x : Bytes) : List Bytes → Bool × List Bytes
  | [] => (true, [x])
  | y :: ys =>
    if lexLt x y then (true, x :: y :: ys)
    else if x = y then (false, y :: ys)
    else
      let r := setInsert x ys
      (r.1, y :: r.2)

/-- Auxiliary decimal accumulator: folds ASCII digit bytes into a number,
failing on any non-digit byte (the core of Rust's integer `parse`). -/
def decValAux : Nat → Bytes → Option Nat
  | acc, [] => some acc
  | acc, c :: cs => if 48 ≤ c ∧ c ≤ 57 then decValAux (acc * 10 + (c - 48)) cs else none

/-- Rust `u64::from_str`: optional leading `+`, then one or more decimal digits,
value below `2^64`. -/
def parseU64 (b : Bytes) : Option Nat :=
  let digits := if b.head? = some 43 then b.tail else b
  if digits = [] then none
  else
    match decValAux 0 digits with
    | some v => if v < 2 ^ 64 then some v else none
    | none => none

/-- The digit part of `i64::from_str`: one or more decimal digits whose signed
value is within the `i64` range. -/
def parseI64Core (neg : Bool) (digits : Bytes) : Option Int :=
  if digits = [] then none
  else
    match decValAux 0 digits with
    | some v =>
      if neg then if v ≤ 2 ^ 63 then some (-(v : Int)) else none
      else if v < 2 ^ 63 then some (v : Int) else none
    | none => none

/-- Rust `i64::from_str`: optional sign, then one or more decimal digits,
value within the `i64` range. -/
def parseI64 (b : Bytes) : Option Int :=
  if b.head? = some 43 then parseI64Core false b.tail
  else if b.head? = some 45 then parseI64Core true b.tail
  else parseI64Core false b

/-- Decimal digits (big-endian ASCII) of `n`, with fuel for termination. -/
def natToDecAux : Nat → Nat → Bytes
  | 0, _ => []
  | fuel + 1, n => if n = 0 then [] else natToDecAux fuel (n / 10) ++ [n % 10 + 48]

/-- Rust `u64`/`usize` `Display`: the usual decimal representation. -/
def natToDec (n : Nat) : Bytes := if n = 0 then [48] else natToDecAux (n + 1) n

/-- Rust `i64` `Display`: optional minus sign followed by the decimal magnitude. -/
def intToDec (i : Int) : Bytes :=
  if i < 0 then 45 :: natToDec i.natAbs else natToDec i.toNat

/-- The byte-at-a-time automaton of `str::from_utf8` validity (RFC 3629, as
implemented by Rust `core`): the state is the number of continuation bytes
still expected together with the admissible range `[lo, hi]` for the next one
(the first continuation byte of a sequence has a leader-dependent range, the
later ones are always `80..BF`). -/
def utf8Aux : Nat → Nat → Nat → Bytes → Bool
  | 0, _, _, [] => true
  | 0, _, _, c :: rest =>
    if c < 0x80 then utf8Aux 0 0 0 rest
    else if 0xC2 ≤ c ∧ c ≤ 0xDF then utf8Aux 1 0x80 0xBF rest
    else if c = 0xE0 then utf8Aux 2 0xA0 0xBF rest
    else if (0xE1 ≤ c ∧ c ≤ 0xEC) ∨ (0xEE ≤ c ∧ c ≤ 0xEF) then utf8Aux 2 0x80 0xBF rest
    else if c = 0xED then utf8Aux 2 0x80 0x9F rest
    else if c = 0xF0 then utf8Aux 3 0x90 0xBF rest
    else if 0xF1 ≤ c ∧ c ≤ 0xF3 then utf8Aux 3 0x80 0xBF rest
    else if c = 0xF4 then utf8Aux 3 0x80 0x8F rest
    else false
  | _ + 1, _, _, [] => false
  | k + 1, lo, hi, c :: rest =>
    if lo ≤ c ∧ c ≤ hi then utf8Aux k 0x80 0xBF rest else false

/-- Rust `str::from_utf8` validity. -/
def isValidUtf8 (b : Bytes) : Bool := utf8Aux 0 0 0 b

/-! ## Wire protocol values (`src/resp.rs`) -/

/-- Rust `RespValue`: the five protocol variants.  Text payloads are byte strings
(the UTF-8 bytes of the Rust `String`); `bulkString none` is the absent
sentinel `$-1`. -/
inductive RespValue : Type where
  | simpleString (s : Bytes)
  | error (s : Bytes)
  | integer (i : Int)
  | bulkString (b : Option Bytes)
  | array (vs : List RespValue)

/-! ## Keyspace data model (`src/shared_store/*.rs`) -/

/-- Rust `StreamID`: `(ms, seq)`, both `u64`, ordered lexicographically
(the derived `Ord` on the Rust struct). -/
structure StreamID where
  ms : Nat
  seq : Nat
deriving DecidableEq, Repr

/-- The strict order `<` of the derived `Ord` on `StreamID`. -/
def StreamID.lt (a b : StreamID) : Prop :=
  a.ms < b.ms ∨ (a.ms = b.ms ∧ a.seq < b.seq)

instance : DecidablePred fun p : StreamID × StreamID => StreamID.lt p.1 p.2 :=
  fun _ => by unfold StreamID.lt; infer_instance

instance (a b : StreamID) : Decidable (StreamID.lt a b) := by
  unfold StreamID.lt; infer_instance

/-- Rust `StreamEntry` (`redis_stream.rs`); only the `Data` variant is ever stored
by the code under verification. -/
inductive StreamEntry : Type where
  | data (id : StreamID) (fields : List (Bytes × Bytes))
  | tombstone (id : Bytes)
deriving DecidableEq

/-- Rust `Stream`: a `BTreeMap<StreamID, StreamEntry>`, embedded as an association
list sorted strictly ascending by id (the B-tree iteration order). -/
structure RStream where
  entries : List (StreamID × StreamEntry)
deriving DecidableEq

/-- Rust `List` (redis_list.rs): the element vector.  The per-key `Notify` handle
carries no list state and is not modelled. -/
structure RList where
  entries : List Bytes
deriving DecidableEq

/-- Rust `Zrank` (zrank.rs): `data` is the `BTreeMap<OrderedFloat<f64>, BTreeSet<String>>`
as an association list sorted ascending by score with each bucket sorted
lexicographically; `reverseMap` is the member-to-score `HashMap`.  Scores are
embedded as `Int`: the code only ever compares scores (`OrderedFloat` order and
`f64` equality), never does arithmetic on them, and the two notions agree on
every non-NaN input, so any linearly ordered type with decidable equality is a
faithful carrier for the comparisons actually performed. -/
structure Zrank where
  data : List (Int × List Bytes)
  reverseMap : List (Bytes × Int)
deriving DecidableEq

/-- Rust `Channel` (channel.rs): subscriber addresses.  The outbound sinks carry no
keyspace state and are not modelled. -/
structure Channel where
  subscribers : List Bytes
deriving DecidableEq

/-- Rust `RedisValue` (shared_store.rs, including the `ZRank` variant added by
zrank.rs). -/
inductive RedisValue : Type where
  | text (v : Bytes)
  | stream (s : RStream)
  | list (l : RList)
  | channel (c : Channel)
  | queue (q : List Bytes)
  | zrank (z : Zrank)
deriving DecidableEq

/-- Rust `Entry`: a typed value plus an optional absolute expiry instant
(`tokio::time::Instant`, embedded as milliseconds). -/
structure Entry where
  value : RedisValue
  expiresAt : Option Nat
deriving DecidableEq

/-- The keyspace `HashMap<String, Entry>` as an association list. -/
abbrev Keyspace := List (Bytes × Entry)

/-! ## Store operations on strings (`shared_store.rs`) -/

/-- Rust `Store::_get`: lookup with the lazy-expiry check
(`Some(expiry) if Instant::now() >= expiry => None`). -/
def storeGetValue (now : Nat) (ks : Keyspace) (key : Bytes) : Option RedisValue :=
  match alGet key ks with
  | some entry =>
    match entry.expiresAt with
    | some expiry => if now ≥ expiry then none else some entry.value
    | none => some entry.value
  | none => none

/-- Rust `Store::get`: a `Text` value returns its bytes; any other live value
returns the empty byte string; absent or expired returns the `$-1` sentinel. -/
def storeGet (now : Nat) (ks : Keyspace) (key : Bytes) : RespValue :=
  match storeGetValue now ks key with
  | some (RedisValue.text v) => RespValue.bulkString (some v)
  | some _ => RespValue.bulkString (some [])
  | none => RespValue.bulkString none

/-- Rust `Store::set`: unconditional overwrite; `px` is a relative TTL in ms added
to the current instant. -/
def storeSet (now : Nat) (ks : Keyspace) (key : Bytes) (value : Bytes)
    (px : Option Nat) : Keyspace :=
  alInsert key { value := RedisValue.text value, expiresAt := px.map (fun ms => now + ms) } ks

/-- Rust `Store::incr`: operates on the raw map entry (no expiry check); a missing
key is set to `"1"`; a present `Text` value must be valid UTF-8 and parse as
`i64`, else the protocol error is returned with no state change.  The
increment `number += 1` is an `i64` addition: at `i64::MAX` it overflows — a
panic under debug assertions, a wrap to `i64::MIN` in release — and in neither
build does it produce the successor; the outer `none` marks that overflow
outcome, like the other modelled faults. -/
def storeIncr (ks : Keyspace) (key : Bytes) : Option (RespValue × Keyspace) :=
  match alGet key ks with
  | some previous =>
    match previous.value with
    | RedisValue.text v =>
      if isValidUtf8 v then
        match parseI64 v with
        | some n =>
          if n + 1 < 2 ^ 63 then
            some (RespValue.integer (n + 1),
              alInsert key { previous with value := RedisValue.text (intToDec (n + 1)) } ks)
          else none
        | none =>
          some (RespValue.error (strBytes "ERR value is not an integer or out of range"), ks)
      else some (RespValue.error (strBytes "ERR value is not an integer or out of range"), ks)
    | _ => some (RespValue.error (strBytes "ERR value is not an integer or out of range"), ks)
  | none =>
    some (RespValue.integer 1,
      alInsert key { value := RedisValue.text (strBytes "1"), expiresAt := none } ks)

/-! ## Sorted-set operations (`src/shared_store/zrank.rs`) -/

/-- Rust `BTreeSet::iter().collect()` then `Vec::sort()`: insertion sort by the
byte-lexicographic order (a no-op on the already sorted buckets, kept for
faithfulness to the source). -/
def sortLexInsert (x : Bytes) : List Bytes → List Bytes
  | [] => [x]
  | y :: ys => if lexLt x y then x :: y :: ys else y :: sortLexInsert x ys

/-- Stable sort of members by byte-lexicographic order (`v.sort()`). -/
def sortLex : List Bytes → List Bytes
  | [] => []
  | x :: xs => sortLexInsert x (sortLex xs)

/-- Rust `data.entry(score).or_default().insert(member)` on the sorted bucket map:
returns whether the member was newly inserted into the bucket. -/
def bucketsInsertMember (s : Int) (m : Bytes) :
    List (Int × List Bytes) → Bool × List (Int × List Bytes)
  | [] => ((setInsert m []).1, [(s, (setInsert m []).2)])
  | (k, set) :: rest =>
    if s < k then ((setInsert m []).1, (s, (setInsert m []).2) :: (k, set) :: rest)
    else if s = k then
      let r := setInsert m set
      (r.1, (k, r.2) :: rest)
    else
      let r := bucketsInsertMember s m rest
      (r.1, (k, set) :: r.2)

/-- Rust `data.get_mut(&score).unwrap().remove(&member)`: `none` models the panic of
the `unwrap` when the bucket is absent. -/
def bucketsRemoveMember (s : Int) (m : Bytes) :
    List (Int × List Bytes) → Option (List (Int × List Bytes))
  | [] => none
  | (k, set) :: rest =>
    if s = k then some ((k, set.erase m) :: rest)
    else (bucketsRemoveMember s m rest).map (fun r => (k, set) :: r)

/-- Rust `Store::zadd`.  Outer `none` models a panic; the `Int` result is the reply
(1 iff the member was not present before). -/
def storeZadd (ks : Keyspace) (key : Bytes) (rank : Int) (value : Bytes) :
    Option (Int × Keyspace) :=
  match alGet key ks with
  | some entry =>
    match entry.value with
    | RedisValue.zrank z =>
      let step1 : Option (Bool × Zrank) :=
        match alGet value z.reverseMap with
        | some oldRank =>
          if oldRank ≠ rank then
            match bucketsRemoveMember oldRank value z.data with
            | some d => some (true, { z with data := d })
            | none => none
          else some (false, z)
        | none => some (false, z)
      match step1 with
      | none => none
      | some (oldValue, z1) =>
        let z2 := { z1 with reverseMap := alInsert value rank z1.reverseMap }
        let ins := bucketsInsertMember rank value z2.data
        let z3 := { z2 with data := ins.2 }
        let ret : Int := if ins.1 ∧ ¬oldValue then 1 else 0
        some (ret, alInsert key { entry with value := RedisValue.zrank z3 } ks)
    | _ => some (0, ks)
  | none =>
    let z : Zrank := { data := [(rank, [value])], reverseMap := [(value, rank)] }
    some (1, alInsert key { value := RedisValue.zrank z, expiresAt := none } ks)

/-- Rust `Store::zrem`.  The member is removed from its score bucket but the
`reverse_map` entry is left in place (as in the source); outer `none` models
the `unwrap` panic. -/
def storeZrem (ks : Keyspace) (key : Bytes) (value : Bytes) :
    Option (Option Int × Keyspace) :=
  match alGet key ks with
  | some entry =>
    match entry.value with
    | RedisValue.zrank z =>
      match alGet value z.reverseMap with
      | some rank =>
        match bucketsRemoveMember rank value z.data with
        | some d =>
          some (some 1, alInsert key { entry with value := RedisValue.zrank { z with data := d } } ks)
        | none => none
      | none => some (none, ks)
    | _ => some (none, ks)
  | none => some (none, ks)

/-- Rust `normalize_index` (zrank.rs). -/
def normalizeIndex (idx : Int) (len : Nat) : Nat :=
  if idx < 0 then
    let abs := (-idx).toNat
    if abs > len then 0 else len - abs
  else if idx.toNat ≥ len then len
  else idx.toNat

/-- Rust `Store::zrange`.  Note `len` is `zrank.data.len()`, the number of distinct
score buckets, while the slice is taken from the flattened member list; outer
`none` models the slice-out-of-bounds panic of `members[start..=stop]`. -/
def storeZrange (ks : Keyspace) (key : Bytes) (start stop : Int) :
    Option (List Bytes) :=
  match alGet key ks with
  | some entry =>
    match entry.value with
    | RedisValue.zrank z =>
      let len := z.data.length
      let members := (z.data.map (fun p => sortLex p.2)).flatten
      if len = 0 then some []
      else
        let start' := normalizeIndex start len
        let stop' := normalizeIndex stop len
        if start' > stop' then some []
        else
          let stop2 := if stop' ≥ len then len - 1 else stop'
          if start' ≤ stop2 + 1 ∧ stop2 + 1 ≤ members.length then
            some ((members.drop start').take (stop2 + 1 - start'))
          else none
    | _ => some []
  | none => some []

/-! ## List operations (`src/shared_store/redis_list.rs`, `shared_store.rs`) -/

/-- Rust `List::lpop`: empty list returns `None`; otherwise `drain(..amount)`.
Outer `none` models the panic of `drain` when `amount` exceeds the length. -/
def listLpop (amount : Nat) (l : RList) : Option (Option (List Bytes) × RList) :=
  if l.entries.isEmpty then some (none, l)
  else if amount ≤ l.entries.length then
    some (some (l.entries.take amount), { entries := l.entries.drop amount })
  else none

/-- Rust `Store::lpop`: absent key is `Ok(None)`; wrong type is an `Err`; a list key
delegates to `List::lpop`.  Outer `none` models a panic. -/
def storeLpop (ks : Keyspace) (key : Bytes) (amount : Nat) :
    Option (Except String (Option (List Bytes)) × Keyspace) :=
  match alGet key ks with
  | some entry =>
    match entry.value with
    | RedisValue.list l =>
      match listLpop amount l with
      | some (res, l') =>
        some (Except.ok res, alInsert key { entry with value := RedisValue.list l' } ks)
      | none => none
    | _ => some (Except.error "ERR LPOP on key holding the wrong kind of value", ks)
  | none => some (Except.ok none, ks)

/-! ## Stream engine (`src/shared_store/redis_stream.rs`, `stream_id.rs`) -/

/-- Rust `splitn(2, '-')` on a byte string: the part before the first dash and,
when a dash exists, the remainder after it. -/
def splitOnDash : Bytes → Bytes × Option Bytes
  | [] => ([], none)
  | 45 :: rest => ([], some rest)
  | c :: rest =>
    let r := splitOnDash rest
    (c :: r.1, r.2)

/-- Rust `parse_stream_id` (stream_id.rs). -/
def parseStreamId (b : Bytes) : Except String StreamID :=
  let parts := splitOnDash b
  match parseU64 parts.1 with
  | none => Except.error "Invalid milliseconds in stream ID"
  | some ms =>
    match parts.2 with
    | none => Except.error "Invalid ID format"
    | some sp =>
      match parseU64 sp with
      | none => Except.error "Invalid sequence in stream ID"
      | some seq => Except.ok ⟨ms, seq⟩

/-- Rust `StreamID::new`: rejects `0-0`. -/
def streamIDNew (ms seq : Nat) : Except String StreamID :=
  if ms = 0 ∧ seq = 0 then Except.error "ID must be greater than 0-0"
  else Except.ok ⟨ms, seq⟩

/-- Rust `StreamID::generate` / `from_redis_input`.  `nowMs` stands for the
`SystemTime::now()` read in `generate_full_id`. -/
def streamIDGenerate (nowMs : Nat) (previous : Option StreamID) (given : Bytes) :
    Except String StreamID :=
  if given = [42] then
    let ms := nowMs
    let seq :=
      match previous with
      | some prev => if prev.ms = ms then prev.seq + 1 else 0
      | none => 0
    Except.ok ⟨ms, seq⟩
  else if given.getLast? = some 42 then
    let stripped := given.dropLast
    let msStr := if stripped.getLast? = some 45 then stripped.dropLast else []
    match parseU64 msStr with
    | none => Except.error "Invalid ms"
    | some ms =>
      let seq :=
        match previous with
        | some prev => if prev.ms = ms then prev.seq + 1 else 0
        | none => 0
      let seq := if ms = 0 ∧ seq = 0 then seq + 1 else seq
      streamIDNew ms seq
  else parseStreamId given

/-- Rust `StreamID` `Display`: `"<ms>-<seq>"`. -/
def streamIDToBytes (id : StreamID) : Bytes :=
  natToDec id.ms ++ [45] ++ natToDec id.seq

/-- Rust `Stream::previous_id`: the greatest stored id (`last_key_value` of the
sorted map), or `0-0` on an empty stream. -/
def streamPreviousId (s : RStream) : StreamID :=
  match s.entries.getLast? with
  | some kv => kv.1
  | none => ⟨0, 0⟩

/-- Rust `Stream::validate_id`: rejects `0-0` and any id `≤` the current top. -/
def validateId (id previous : StreamID) : Except String Bool :=
  if id = ⟨0, 0⟩ then
    Except.error "ERR The ID specified in XADD must be greater than 0-0"
  else if id.ms < previous.ms ∨ (id.ms = previous.ms ∧ id.seq ≤ previous.seq) then
    Except.error "ERR The ID specified in XADD is equal or smaller than the target stream top item"
  else Except.ok true

/-- Rust `BTreeMap::insert` on the sorted entry list (replace on equal key). -/
def entriesInsert (id : StreamID) (e : StreamEntry) :
    List (StreamID × StreamEntry) → List (StreamID × StreamEntry)
  | [] => [(id, e)]
  | (k, v) :: rest =>
    if StreamID.lt id k then (id, e) :: (k, v) :: rest
    else if id = k then (id, e) :: rest
    else (k, v) :: entriesInsert id e rest

/-- Rust `Stream::append`: validate against the current top, then insert. -/
def streamAppend (s : RStream) (id : StreamID) (fields : List (Bytes × Bytes)) :
    Except String RStream :=
  let entry := StreamEntry.data id fields
  match validateId id (streamPreviousId s) with
  | Except.error e => Except.error e
  | Except.ok _ => Except.ok { entries := entriesInsert id entry s.entries }

/-- Rust `Store::xadd` (shared_store.rs): resolve the id against the stream's top
(or `None` on a fresh key), append, and return the id's decimal rendering. -/
def storeXadd (nowMs : Nat) (ks : Keyspace) (key : Bytes) (id : Bytes)
    (fields : List (Bytes × Bytes)) : Except String (Bytes × Keyspace) :=
  match alGet key ks with
  | some entry =>
    match entry.value with
    | RedisValue.stream s =>
      match streamIDGenerate nowMs (some (streamPreviousId s)) id with
      | Except.error e => Except.error e
      | Except.ok sid =>
        match streamAppend s sid fields with
        | Except.error e => Except.error e
        | Except.ok s' =>
          Except.ok (streamIDToBytes sid,
            alInsert key { entry with value := RedisValue.stream s' } ks)
    | _ => Except.error "ERR calling None Stream Value with stream key"
  | none =>
    match streamIDGenerate nowMs none id with
    | Except.error e => Except.error e
    | Except.ok sid =>
      match streamAppend { entries := [] } sid fields with
      | Except.error e => Except.error e
      | Except.ok s' =>
        Except.ok (streamIDToBytes sid,
          alInsert key { value := RedisValue.stream s', expiresAt := none } ks)

/-! ## Replication log and the XADD command handler
(`shared_store.rs`, `handlers/command_handlers/xadd.rs`) -/

/-- Rust `Store` as the handlers see it: the keyspace plus the append-only
replication log (`log: Arc<RwLock<Vec<u8>>>`). -/
structure Store where
  keyspace : Keyspace
  log : Bytes
deriving DecidableEq

/-- Rust `Store::append_to_log`. -/
def appendToLog (st : Store) (bytes : Bytes) : Store :=
  { st with log := st.log ++ bytes }

/-- Rust `xadd_command` (xadd.rs): the raw frame bytes are appended to the
replication log BEFORE `Store::xadd` runs, and on failure the error is turned
into a reply frame with the log append already applied. -/
def xaddCommand (nowMs : Nat) (st : Store) (key : Bytes) (id : Bytes)
    (fields : List (Bytes × Bytes)) (bytes : Bytes) : RespValue × Store :=
  let st1 := appendToLog st bytes
  match storeXadd nowMs st1.keyspace key id fields with
  | Except.ok r => (RespValue.bulkString (some r.1), { st1 with keyspace := r.2 })
  | Except.error e => (RespValue.error (strBytes e), st1)

/-! ## Session state machine, Multi mode (`src/handlers/master.rs`) -/

/-- The command variants needed by the claims under verification.  The session
state machine distinguishes only `EXEC` and `DISCARD` from everything else, so
the remaining variants of the Rust `RespCommand` enum would be handled
identically to the representative ones listed here. -/
inductive RespCommand : Type where
  | ping
  | echo (s : Bytes)
  | get (key : Bytes)
  | set (key value : Bytes) (px : Option Nat)
  | incr (key : Bytes)
  | multi
  | exec
  | discard
  | xadd (key id : Bytes) (fields : List (Bytes × Bytes))
  | zadd (key : Bytes) (rank : Int) (value : Bytes)
  | zrem (key value : Bytes)
  | lpop (key : Bytes) (amount : Nat)
deriving DecidableEq

/-- Rust `ClientMode` (handlers/client.rs). -/
inductive ClientMode : Type where
  | normal
  | subscribed
  | multi
deriving DecidableEq

/-- Rust `Session` (handlers/session.rs): the queued (command, raw frame bytes)
pairs. -/
structure Session where
  queued : List (RespCommand × Bytes)

/-- Rust `process_command`'s reply for a `MULTI` reaching it (the arm hit when a
queued `MULTI` is executed by `EXEC`). -/
def nestedMultiReply : RespValue :=
  RespValue.error (strBytes "ERR MULTI calls can not be nested")

/-- Rust `handle_multi_mode` (master.rs).  `process` stands for `process_command`;
the result lists the frames sent on the connection, then the client mode and
session after the call.  `EXEC` executes the queue in order collecting the
`Some` replies; `DISCARD` clears; anything else — `MULTI` included — is pushed
onto the queue and answered `QUEUED`. -/
def handleMultiMode (process : RespCommand → Bytes → Option RespValue)
    (session : Session) (command : RespCommand) (bytes : Bytes) :
    List RespValue × ClientMode × Session :=
  match command with
  | RespCommand.exec =>
    if session.queued.isEmpty then ([RespValue.array []], ClientMode.normal, session)
    else
      let responses := session.queued.filterMap (fun qb => process qb.1 qb.2)
      ([RespValue.array responses], ClientMode.normal, { queued := [] })
  | RespCommand.discard =>
    ([RespValue.simpleString (strBytes "OK")], ClientMode.normal, { queued := [] })
  | _ =>
    ([RespValue.bulkString (some (strBytes "QUEUED"))], ClientMode.multi,
      { queued := session.queued ++ [(command, bytes)] })

/-! ## Snapshot loader (`src/rdb/length_encoded_values.rs`, `src/rdb/parser.rs`,
`src/main.rs`) -/

/-- Rust `read_exact` on an in-memory byte source: take `n` bytes or fail (EOF). -/
def readExact (n : Nat) (src : Bytes) : Option (Bytes × Bytes) :=
  if n ≤ src.length then some (src.take n, src.drop n) else none

/-- Big-endian value of a byte string (`u32::from_be_bytes`). -/
def beNat (l : Bytes) : Nat := l.foldl (fun acc b => acc * 256 + b) 0

/-- Little-endian value of a byte string (`u64::from_le_bytes`). -/
def leNat (l : Bytes) : Nat := beNat l.reverse

/-- Rust `LengthEncodedValue`. -/
inductive LEV : Type where
  | str (s : Bytes)
  | int (n : Nat)
deriving DecidableEq

/-- Rust `read_string`: read `length` bytes and require valid UTF-8. -/
def readLevString (length : Nat) (src : Bytes) : Except String (Bytes × Bytes) :=
  match readExact length src with
  | none => Except.error "eof"
  | some r => if isValidUtf8 r.1 then Except.ok r else Except.error "Invalid String"

/-- Rust `read_integer`: `0xC0` u8, `0xC1` u16 LE, `0xC2` u32 LE; `0xC3`
(compressed string) is `unimplemented!` in the source — loading it faults,
modelled as an error outcome like the other fatal startup failures. -/
def readLevInteger (p : Nat) (src : Bytes) : Except String (Nat × Bytes) :=
  if p = 0 then
    match readExact 1 src with
    | none => Except.error "eof"
    | some r => Except.ok (beNat r.1, r.2)
  else if p = 1 then
    match readExact 2 src with
    | none => Except.error "eof"
    | some r => Except.ok (leNat r.1, r.2)
  else if p = 2 then
    match readExact 4 src with
    | none => Except.error "eof"
    | some r => Except.ok (leNat r.1, r.2)
  else if p = 3 then Except.error "Compressed string decoding not implemented"
  else Except.error "unknown integer encoding prefix"

/-- Rust `LengthEncodedValue::from_reader`: dispatch on the top two bits of the
first byte. -/
def levFromReader (src : Bytes) : Except String (LEV × Bytes) :=
  match src with
  | [] => Except.error "eof"
  | b :: rest =>
    if b / 64 = 0 then
      match readLevString (b % 64) rest with
      | Except.error e => Except.error e
      | Except.ok r => Except.ok (LEV.str r.1, r.2)
    else if b / 64 = 1 then
      match rest with
      | [] => Except.error "eof"
      | b2 :: r2 =>
        match readLevString ((b % 64) * 256 + b2) r2 with
        | Except.error e => Except.error e
        | Except.ok r => Except.ok (LEV.str r.1, r.2)
    else if b / 64 = 2 then
      match readExact 4 rest with
      | none => Except.error "eof"
      | some r4 =>
        match readLevString (beNat r4.1) r4.2 with
        | Except.error e => Except.error e
        | Except.ok r => Except.ok (LEV.str r.1, r.2)
    else
      match readLevInteger (b % 64) rest with
      | Except.error e => Except.error e
      | Except.ok r => Except.ok (LEV.int r.1, r.2)

/-- A record produced by `RdbConfig::load`: key, value, optional absolute
expiry in ms as stored in the file. -/
abbrev RdbRecord := Bytes × Bytes × Option Nat

/-- The bytes a `LengthEncodedValue` contributes as a key or value
(`String` kept as-is; `Integer` rendered in decimal, `to_string()`). -/
def levToBytes : LEV → Bytes
  | LEV.str s => s
  | LEV.int n => natToDec n

/-- The record loop of `RdbConfig::load` (parser.rs lines 33–118).  `now` is
the `SystemTime::now()` wall-clock ms; a record whose pending expiry is not in
the future is dropped (`(expiry.is_some() && now < expiry.unwrap()) ||
expiry.is_none()`).  Fuel is a termination device; `fuel = src.length + 1`
always suffices since every iteration consumes the opcode byte. -/
def rdbLoadLoop (now : Nat) : Nat → Option Nat → Bytes → Except String (List RdbRecord)
  | 0, _, _ => Except.error "fuel exhausted"
  | fuel + 1, expiry, src =>
    match src with
    | [] => Except.ok []
    | op :: rest =>
      if op = 0xFF then Except.ok []
      else if op = 0xFA then
        match levFromReader rest with
        | Except.error e => Except.error e
        | Except.ok r1 =>
          match levFromReader r1.2 with
          | Except.error e => Except.error e
          | Except.ok r2 => rdbLoadLoop now fuel expiry r2.2
      else if op = 0xFE then
        match levFromReader rest with
        | Except.error e => Except.error e
        | Except.ok r => rdbLoadLoop now fuel expiry r.2
      else if op = 0xFD then
        match readExact 4 rest with
        | none => Except.error "eof"
        | some r => rdbLoadLoop now fuel (some (beNat r.1 * 1000)) r.2
      else if op = 0xFC then
        match readExact 8 rest with
        | none => Except.error "eof"
        | some r => rdbLoadLoop now fuel (some (leNat r.1)) r.2
      else if op = 0xFB then
        match readExact 2 rest with
        | none => Except.error "eof"
        | some r => rdbLoadLoop now fuel expiry r.2
      else if op = 0x00 then
        match levFromReader rest with
        | Except.error e => Except.error e
        | Except.ok rk =>
          match levFromReader rk.2 with
          | Except.error e => Except.error e
          | Except.ok rv =>
            let key := levToBytes rk.1
            let value := levToBytes rv.1
            let keep : Bool := match expiry with
              | some e => decide (now < e)
              | none => true
            match rdbLoadLoop now fuel none rv.2 with
            | Except.error e => Except.error e
            | Except.ok tail =>
              Except.ok (if keep then (key, value, expiry) :: tail else tail)
      else Except.error "Unexpected opcode"

/-- Rust `RdbConfig::load`: `REDIS` magic, 4-byte ASCII version, then the record
loop.  (The `path.exists()` short-circuit and the hex debug dump are I/O and
not part of the parse.) -/
def rdbLoad (now : Nat) (file : Bytes) : Except String (List RdbRecord) :=
  match readExact 5 file with
  | none => Except.error "eof"
  | some m =>
    if m.1 = strBytes "REDIS" then
      match readExact 4 m.2 with
      | none => Except.error "eof"
      | some v =>
        if isValidUtf8 v.1 then
          match parseU64 v.1 with
          | some _ => rdbLoadLoop now (v.2.length + 1) none v.2
          | none => Except.error "Invalid version number"
        else Except.error "Invalid version bytes"
    else Except.error "Invalid Database"

/-- The seeding loop of `main` (main.rs lines 42–47): each loaded record is
fed to `Store::set` with the file's expiry value passed as the `px`
parameter — i.e. the absolute expiry instant of the file is reinterpreted as
a TTL relative to load time. -/
def mainSeed (now : Nat) (records : List RdbRecord) : Keyspace :=
  records.foldl (fun ks r => storeSet now ks r.1 r.2.1 r.2.2) []

/-! ## Wire codec (`src/resp.rs`) -/

/-- The CRLF delimiter bytes. -/
def crlf : Bytes := [13, 10]

/-- Index of the first `\r\n` window in a byte string
(`src.windows(2).position(|s| s == b"\r\n")`). -/
def findCrlf : Bytes → Option Nat
  | [] => none
  | [_] => none
  | a :: b :: rest =>
    if a = 13 ∧ b = 10 then some 0 else (findCrlf (b :: rest)).map (fun n => n + 1)

/-- Rust `parse_resp_line`: split at the first CRLF; the line content skips the
leading type-tag byte (`line[1..pos]`) and must be valid UTF-8; `ok none`
means the buffer holds no full line yet.  (The callers guarantee `pos ≥ 1`
since byte 0 is a matched type tag, never `\r`.) -/
def parseRespLine (src : Bytes) : Except String (Option (Bytes × Bytes)) :=
  match findCrlf src with
  | none => Except.ok none
  | some pos =>
    let content := (src.take pos).drop 1
    if isValidUtf8 content then Except.ok (some (content, src.drop (pos + 2)))
    else Except.error "Invalid UTF-8"

/-- Rust `digest_stream`: take `pos` payload bytes, require the following CRLF;
`ok none` means the buffer is still short. -/
def digestStream (pos : Nat) (src : Bytes) : Except String (Option (Bytes × Bytes)) :=
  if src.length < pos + 2 then Except.ok none
  else
    if (src.drop pos).take 2 = crlf then Except.ok (some (src.take pos, src.drop (pos + 2)))
    else Except.error "Expected CRLF after bulk string"

/-- The element loop of `RespCodec::parse_array` (`for _ in 0..size`), with the
element decoder passed in; a `None` from the element decoder aborts the whole
array with "need more". -/
def decodeArrayAux (d : Bytes → Except String (Option (RespValue × Bytes))) :
    Nat → Bytes → List RespValue → Except String (Option (RespValue × Bytes))
  | 0, src, acc => Except.ok (some (RespValue.array acc.reverse, src))
  | n + 1, src, acc =>
    match d src with
    | Except.error e => Except.error e
    | Except.ok none => Except.ok none
    | Except.ok (some vr) => decodeArrayAux d n vr.2 (vr.1 :: acc)

/-- Rust `RespCodec::decode` with fuel (a termination device only: every recursive
entry is reached behind at least one consumed header byte, so
`fuel = src.length + 1` always suffices, see `RespCodec_decode`).  Dispatch on
the tag byte: `+` 43, `-` 45, `:` 58, `$` 36, `*` 42.  `parse_integer`'s
(sic) error text for a non-numeric field is "Invalid UTF-8", as in the
source. -/
def decodeAux : Nat → Bytes → Except String (Option (RespValue × Bytes))
  | 0, _ => Except.error "fuel exhausted"
  | fuel + 1, src =>
    match src with
    | [] => Except.ok none
    | c :: _ =>
      if c = 43 then
        match parseRespLine src with
        | Except.error e => Except.error e
        | Except.ok none => Except.ok none
        | Except.ok (some cr) => Except.ok (some (RespValue.simpleString cr.1, cr.2))
      else if c = 45 then
        match parseRespLine src with
        | Except.error e => Except.error e
        | Except.ok none => Except.ok none
        | Except.ok (some cr) => Except.ok (some (RespValue.error cr.1, cr.2))
      else if c = 58 then
        match parseRespLine src with
        | Except.error e => Except.error e
        | Except.ok none => Except.ok none
        | Except.ok (some cr) =>
          match parseI64 cr.1 with
          | some i => Except.ok (some (RespValue.integer i, cr.2))
          | none => Except.error "Invalid UTF-8"
      else if c = 36 then
        match parseRespLine src with
        | Except.error e => Except.error e
        | Except.ok none => Except.ok none
        | Except.ok (some cr) =>
          match parseI64 cr.1 with
          | none => Except.error "Invalid UTF-8"
          | some n =>
            if n = -1 then Except.ok (some (RespValue.bulkString none, cr.2))
            else
              match digestStream ((n.emod (2 ^ 64)).toNat) cr.2 with
              | Except.error e => Except.error e
              | Except.ok none => Except.ok none
              | Except.ok (some br) =>
                Except.ok (some (RespValue.bulkString (some br.1), br.2))
      else if c = 42 then
        match parseRespLine src with
        | Except.error e => Except.error e
        | Except.ok none => Except.ok none
        | Except.ok (some cr) =>
          match parseI64 cr.1 with
          | none => Except.error "Invalid UTF-8"
          | some n => decodeArrayAux (decodeAux fuel) n.toNat cr.2 []
      else Except.error "Unknown RESP type"

/-- Rust `RespCodec::decode` on a buffer. -/
def RespCodec_decode (src : Bytes) : Except String (Option (RespValue × Bytes)) :=
  decodeAux (src.length + 1) src

mutual

/-- Rust `RespCodec::encode` / `write_line` / `write_bulk_string` / `write_array`. -/
def encodeResp : RespValue → Bytes
  | RespValue.simpleString s => 43 :: (s ++ crlf)
  | RespValue.error s => 45 :: (s ++ crlf)
  | RespValue.integer i => 58 :: (intToDec i ++ crlf)
  | RespValue.bulkString none => [36, 45, 49] ++ crlf
  | RespValue.bulkString (some d) => 36 :: (natToDec d.length ++ crlf ++ d ++ crlf)
  | RespValue.array vs => 42 :: (natToDec vs.length ++ crlf ++ encodeList vs)

/-- Encoding of the elements of an array, in order. -/
def encodeList : List RespValue → Bytes
  | [] => []
  | v :: vs => encodeResp v ++ encodeList vs

end

/-- No `\r\n` window occurs in the byte string (such content survives
`parse_resp_line` intact). -/
def noCrlf : Bytes → Bool
  | [] => true
  | [_] => true
  | a :: b :: rest => if a = 13 ∧ b = 10 then false else noCrlf (b :: rest)

mutual

/-- Well-formed protocol values: one-line text fields are valid UTF-8 with no
embedded CRLF (Rust `String`s hold valid UTF-8, and simple strings, errors and
integers are one-line frames); integers are within `i64`; bulk payload and
array lengths are within the ranges the decoder parses back (`i64`-positive,
automatic for any real `Vec`). -/
def wellFormedB : RespValue → Bool
  | RespValue.simpleString s => isValidUtf8 s && noCrlf s
  | RespValue.error s => isValidUtf8 s && noCrlf s
  | RespValue.integer i => decide (-(2 ^ 63 : Int) ≤ i ∧ i < 2 ^ 63)
  | RespValue.bulkString none => true
  | RespValue.bulkString (some d) => decide (d.length < 2 ^ 63)
  | RespValue.array vs => decide (vs.length < 2 ^ 63) && wellFormedList vs

/-- All elements are well-formed. -/
def wellFormedList : List RespValue → Bool
  | [] => true
  | v :: vs => wellFormedB v && wellFormedList vs

end

mutual

/-- Number of value nodes in a protocol value (fuel bound for the decoder). -/
def nodeCount : RespValue → Nat
  | RespValue.simpleString _ => 1
  | RespValue.error _ => 1
  | RespValue.integer _ => 1
  | RespValue.bulkString _ => 1
  | RespValue.array vs => 1 + nodeCountList vs

/-- Total node count of a list of protocol values. -/
def nodeCountList : List RespValue → Nat
  | [] => 0
  | v :: vs => nodeCount v + nodeCountList vs

end

/-! ## Predicates used to state the claims -/

/-- Mutual consistency of the two sorted-set structures: every member in the
inverse map with score `s` lies in the bucket of `s` and in no other bucket,
and every bucket member is in the inverse map with that bucket's score. -/
def zrankConsistent (z : Zrank) : Prop :=
  (∀ m s, alGet m z.reverseMap = some s →
    ∀ p ∈ z.data, (m ∈ p.2 ↔ p.1 = s)) ∧
  (∀ p ∈ z.data, ∀ m ∈ p.2, alGet m z.reverseMap = some p.1)

/-- The container-typed values: list, stream, or pub/sub channel. -/
def isContainerValue : RedisValue → Prop
  | RedisValue.list _ => True
  | RedisValue.stream _ => True
  | RedisValue.channel _ => True
  | _ => False

/-- Stream entries sorted strictly ascending by id: the B-tree invariant, and
the statement that of any two appended ids the later is the greater. -/
def streamIdsSorted (l : List (StreamID × StreamEntry)) : Prop :=
  l.Pairwise (fun a b => StreamID.lt a.1 b.1)

/-- The wire frame of `XADD s 0-0 f v`, as the session layer hands it to the
XADD handler alongside the parsed command. -/
def xaddFrame : Bytes :=
  encodeResp (RespValue.array [RespValue.bulkString (some (strBytes "XADD")),
    RespValue.bulkString (some (strBytes "s")), RespValue.bulkString (some (strBytes "0-0")),
    RespValue.bulkString (some (strBytes "f")), RespValue.bulkString (some (strBytes "v"))])

/-- A concrete snapshot file: `REDIS0011` header, a `0xFC` millisecond expiry
of 1000 (little-endian), one string record `k ↦ v`, and the `0xFF`
terminator. -/
def rdbFileW : Bytes :=
  strBytes "REDIS0011" ++ [0xFC, 0xE8, 0x03, 0, 0, 0, 0, 0, 0, 0x00, 0x01, 107, 0x01, 118, 0xFF]

/-! ## Helper lemmas: list splitting and decimal round-trips -/

theorem takeAppendLen {α : Type} (l u : List α) : (l ++ u).take l.length = l := by
  induction l with
  | nil => simp
  | cons x xs ih => simp [ih]

theorem dropAppendLen {α : Type} (l u : List α) (n : Nat) :
    (l ++ u).drop (l.length + n) = u.drop n := by
  induction l with
  | nil => simp
  | cons x xs ih => simp only [List.cons_append, List.length_cons, Nat.succ_add, List.drop_succ_cons]; exact ih

theorem decValAux_append (acc : Nat) (xs ys : Bytes) :
    decValAux acc (xs ++ ys) =
      match decValAux acc xs with
      | some v => decValAux v ys
      | none => none := by
  induction xs generalizing acc with
  | nil => simp [decValAux]
  | cons c cs ih =>
    by_cases h : 48 ≤ c ∧ c ≤ 57 <;> simp [decValAux, h, ih]

theorem decValAux_natToDecAux (fuel n acc : Nat) (h : n < 10 ^ fuel) :
    decValAux acc (natToDecAux fuel n) =
      some (acc * 10 ^ (natToDecAux fuel n).length + n) := by
  induction fuel generalizing n acc with
  | zero =>
    have : n = 0 := by simpa using h
    simp [this, natToDecAux, decValAux]
  | succ f ih =>
    by_cases hn : n = 0
    · simp [hn, natToDecAux, decValAux]
    · have hdiv : n / 10 < 10 ^ f := by
        refine (Nat.div_lt_iff_lt_mul (by norm_num)).mpr ?_
        have hp : (10 : Nat) ^ (f + 1) = 10 ^ f * 10 := by ring
        omega
      have hrec := ih (n / 10) acc hdiv
      have hdig : 48 ≤ n % 10 + 48 ∧ n % 10 + 48 ≤ 57 := by
        have := Nat.mod_lt n (y := 10) (by norm_num)
        omega
      simp only [natToDecAux, if_neg hn, decValAux_append, hrec, decValAux, if_pos hdig,
        List.length_append, List.length_cons, List.length_nil]
      have : acc * 10 ^ ((natToDecAux f (n / 10)).length + (0 + 1)) =
          acc * 10 ^ (natToDecAux f (n / 10)).length * 10 := by ring
      rw [this]
      have hsplit : (acc * 10 ^ (natToDecAux f (n / 10)).length + n / 10) * 10 + (n % 10 + 48 - 48)
          = acc * 10 ^ (natToDecAux f (n / 10)).length * 10 + n := by
        have := Nat.div_add_mod n 10
        omega
      rw [hsplit]

theorem natToDecAux_digits (fuel n : Nat) :
    ∀ c ∈ natToDecAux fuel n, 48 ≤ c ∧ c ≤ 57 := by
  induction fuel generalizing n with
  | zero => simp [natToDecAux]
  | succ f ih =>
    by_cases hn : n = 0
    · simp [hn, natToDecAux]
    · intro c hc
      simp only [natToDecAux, if_neg hn, List.mem_append, List.mem_singleton] at hc
      rcases hc with hc | hc
      · exact ih (n / 10) c hc
      · have := Nat.mod_lt n (y := 10) (by norm_num)
        omega

theorem natToDec_digits (n : Nat) : ∀ c ∈ natToDec n, 48 ≤ c ∧ c ≤ 57 := by
  unfold natToDec
  by_cases hn : n = 0
  · simp [hn]
  · simpa [hn] using natToDecAux_digits (n + 1) n

theorem natToDec_ne_nil (n : Nat) : natToDec n ≠ [] := by
  unfold natToDec
  by_cases hn : n = 0
  · simp [hn]
  · have hlt : n < 10 ^ (n + 1) := by
      calc n < 10 ^ n := Nat.lt_pow_self (by norm_num) n
      _ ≤ 10 ^ (n + 1) := Nat.pow_le_pow_right (by norm_num) (Nat.le_succ n)
    intro hcontra
    have := decValAux_natToDecAux (n + 1) n 0 hlt
    rw [if_neg hn] at hcontra
    rw [hcontra] at this
    simp [decValAux] at this
    omega

theorem decValAux_natToDec (n : Nat) : decValAux 0 (natToDec n) = some n := by
  unfold natToDec
  by_cases hn : n = 0
  · simp [hn, decValAux]
  · have hlt : n < 10 ^ (n + 1) := by
      calc n < 10 ^ n := Nat.lt_pow_self (by norm_num) n
      _ ≤ 10 ^ (n + 1) := Nat.pow_le_pow_right (by norm_num) (Nat.le_succ n)
    simpa [hn] using decValAux_natToDecAux (n + 1) n 0 hlt

theorem parseU64_digits (b : Bytes) (hne : b ≠ [])
    (hd : ∀ c ∈ b, 48 ≤ c ∧ c ≤ 57) (n : Nat)
    (hval : decValAux 0 b = some n) (h : n < 2 ^ 64) : parseU64 b = some n := by
  have hhead : b.head? ≠ some 43 := by
    match b with
    | [] => exact absurd rfl hne
    | c :: rest =>
      have := hd c (List.mem_cons_self c rest)
      simp only [List.head?]
      intro hcontra
      have : c = 43 := by injection hcontra
      omega
  unfold parseU64
  simp [hhead, hne, hval]
  omega

theorem parseU64_natToDec (n : Nat) (h : n < 2 ^ 64) : parseU64 (natToDec n) = some n :=
  parseU64_digits (natToDec n) (natToDec_ne_nil n) (natToDec_digits n) n
    (decValAux_natToDec n) h

theorem digitsHeadNeSign (b : Bytes) (hd : ∀ c ∈ b, 48 ≤ c ∧ c ≤ 57) (x : Nat)
    (hx : x < 48) : b.head? ≠ some x := by
  match b with
  | [] => simp
  | c :: rest =>
    have := hd c (List.mem_cons_self c rest)
    simp only [List.head?]
    intro hcontra
    have : c = x := by injection hcontra
    omega

theorem parseI64_digits (b : Bytes) (hne : b ≠ [])
    (hd : ∀ c ∈ b, 48 ≤ c ∧ c ≤ 57) (n : Nat)
    (hval : decValAux 0 b = some n) (h : n < 2 ^ 63) : parseI64 b = some (n : Int) := by
  have h43 := digitsHeadNeSign b hd 43 (by norm_num)
  have h45 := digitsHeadNeSign b hd 45 (by norm_num)
  unfold parseI64 parseI64Core
  simp [h43, h45, hne, hval]
  omega

theorem parseI64_natToDec (n : Nat) (h : n < 2 ^ 63) :
    parseI64 (natToDec n) = some (n : Int) :=
  parseI64_digits (natToDec n) (natToDec_ne_nil n) (natToDec_digits n) n
    (decValAux_natToDec n) h

theorem parseI64_intToDec (i : Int) (h1 : -(2 ^ 63) ≤ i) (h2 : i < 2 ^ 63) :
    parseI64 (intToDec i) = some i := by
  by_cases hneg : i < 0
  · have habs : (i.natAbs : Int) = -i := by omega
    have habs63 : i.natAbs ≤ 2 ^ 63 := by omega
    unfold intToDec
    rw [if_pos hneg]
    unfold parseI64
    have hh : (45 :: natToDec i.natAbs).head? = some 45 := rfl
    rw [if_neg (by rw [hh]; intro hcontra; injection hcontra; omega), if_pos hh]
    unfold parseI64Core
    simp only [List.tail_cons]
    rw [if_neg (natToDec_ne_nil i.natAbs), decValAux_natToDec i.natAbs]
    simp [habs]
    omega
  · have htn : ((i.toNat : Nat) : Int) = i := by omega
    have htn63 : i.toNat < 2 ^ 63 := by omega
    unfold intToDec
    rw [if_neg hneg]
    rw [parseI64_natToDec i.toNat htn63, htn]

theorem noCrlf_of_no13 (b : Bytes) (h : ∀ c ∈ b, c ≠ 13) : noCrlf b = true := by
  induction b with
  | nil => rfl
  | cons a rest ih =>
    match rest with
    | [] => rfl
    | x :: rest' =>
      have ha : a ≠ 13 := h a (List.mem_cons_self _ _)
      have hstep : noCrlf (a :: x :: rest') =
          if a = 13 ∧ x = 10 then false else noCrlf (x :: rest') := rfl
      rw [hstep, if_neg (by intro hc; exact ha hc.1)]
      exact ih (fun c hc => h c (List.mem_cons_of_mem a hc))

theorem isValidUtf8_ascii (b : Bytes) (h : ∀ c ∈ b, c < 0x80) : isValidUtf8 b = true := by
  unfold isValidUtf8
  induction b with
  | nil => rfl
  | cons a rest ih =>
    have ha : a < 0x80 := h a (List.mem_cons_self _ _)
    unfold utf8Aux
    rw [if_pos ha]
    exact ih (fun c hc => h c (List.mem_cons_of_mem a hc))

theorem intToDec_bytes (i : Int) : ∀ c ∈ intToDec i, c = 45 ∨ (48 ≤ c ∧ c ≤ 57) := by
  intro c hc
  unfold intToDec at hc
  by_cases hneg : i < 0
  · rw [if_pos hneg] at hc
    rcases List.mem_cons.mp hc with hc | hc
    · exact Or.inl hc
    · exact Or.inr (natToDec_digits _ c hc)
  · rw [if_neg hneg] at hc
    exact Or.inr (natToDec_digits _ c hc)

theorem intToDec_noCrlf (i : Int) : noCrlf (intToDec i) = true :=
  noCrlf_of_no13 _ (fun c hc => by rcases intToDec_bytes i c hc with h | h <;> omega)

theorem intToDec_utf8 (i : Int) : isValidUtf8 (intToDec i) = true :=
  isValidUtf8_ascii _ (fun c hc => by rcases intToDec_bytes i c hc with h | h <;> omega)

theorem natToDec_noCrlf (n : Nat) : noCrlf (natToDec n) = true :=
  noCrlf_of_no13 _ (fun c hc => by have := natToDec_digits n c hc; omega)

theorem natToDec_utf8 (n : Nat) : isValidUtf8 (natToDec n) = true :=
  isValidUtf8_ascii _ (fun c hc => by have := natToDec_digits n c hc; omega)

end RedisModel

namespace RedisModel

theorem noCrlf_cons_cons (a b : Nat) (l : Bytes) :
    noCrlf (a :: b :: l) = if a = 13 ∧ b = 10 then false else noCrlf (b :: l) := rfl

theorem findCrlf_cons_cons (a b : Nat) (l : Bytes) :
    findCrlf (a :: b :: l) =
      if a = 13 ∧ b = 10 then some 0 else (findCrlf (b :: l)).map (fun n => n + 1) := rfl

theorem noCrlf_cons (a : Nat) (l : Bytes) (ha : a ≠ 13) (h : noCrlf l = true) :
    noCrlf (a :: l) = true := by
  match l with
  | [] => rfl
  | b :: l' =>
    rw [noCrlf_cons_cons, if_neg (by intro hc; exact ha hc.1)]
    exact h

theorem findCrlf_append (s t : Bytes) (h : noCrlf s = true) :
    findCrlf (s ++ 13 :: 10 :: t) = some s.length := by
  induction s with
  | nil => simp [findCrlf_cons_cons]
  | cons x s' ih =>
    match s' with
    | [] => simp [findCrlf_cons_cons]
    | y :: s'' =>
      rw [noCrlf_cons_cons] at h
      have hxy : ¬(x = 13 ∧ y = 10) := by
        intro hc
        rw [if_pos hc] at h
        exact Bool.false_ne_true h
      rw [if_neg hxy] at h
      show findCrlf (x :: y :: (s'' ++ 13 :: 10 :: t)) = some (x :: y :: s'').length
      rw [findCrlf_cons_cons, if_neg hxy]
      have := ih h
      rw [show (y :: s'') ++ 13 :: 10 :: t = y :: (s'' ++ 13 :: 10 :: t) from rfl] at this
      rw [this]
      simp

theorem parseRespLine_frame (tag : Nat) (s t : Bytes) (htag : tag ≠ 13)
    (hU : isValidUtf8 s = true) (hN : noCrlf s = true) :
    parseRespLine (tag :: (s ++ 13 :: 10 :: t)) = Except.ok (some (s, t)) := by
  have hfind : findCrlf ((tag :: s) ++ 13 :: 10 :: t) = some (tag :: s).length :=
    findCrlf_append (tag :: s) t (noCrlf_cons tag s htag hN)
  unfold parseRespLine
  rw [show tag :: (s ++ 13 :: 10 :: t) = (tag :: s) ++ 13 :: 10 :: t from rfl, hfind]
  have htake : (((tag :: s) ++ 13 :: 10 :: t).take (tag :: s).length).drop 1 = s := by
    rw [takeAppendLen]
    rfl
  have hdrop : ((tag :: s) ++ 13 :: 10 :: t).drop ((tag :: s).length + 2) = t := by
    rw [dropAppendLen]
    rfl
  simp only [htake, hdrop, if_pos hU]

theorem digestStream_exact (d t : Bytes) :
    digestStream d.length (d ++ 13 :: 10 :: t) = Except.ok (some (d, t)) := by
  unfold digestStream
  have hlen : (d ++ 13 :: 10 :: t).length = d.length + (t.length + 2) := by
    simp [List.length_append]
  rw [if_neg (by omega)]
  have h1 : ((d ++ 13 :: 10 :: t).drop d.length).take 2 = crlf := by
    have h0 := dropAppendLen d (13 :: 10 :: t) 0
    rw [Nat.add_zero] at h0
    rw [h0]
    rfl
  have h2 : (d ++ 13 :: 10 :: t).take d.length = d := takeAppendLen d _
  have h3 : (d ++ 13 :: 10 :: t).drop (d.length + 2) = t := by
    rw [dropAppendLen]
    rfl
  rw [if_pos h1, h2, h3]

end RedisModel

namespace RedisModel

theorem one_le_nodeCount (v : RespValue) : 1 ≤ nodeCount v := by
  cases v <;> simp [nodeCount]

theorem decodeStep_simple (fuel : Nat) (s t : Bytes)
    (hU : isValidUtf8 s = true) (hN : noCrlf s = true) :
    decodeAux (fuel + 1) (43 :: (s ++ 13 :: 10 :: t)) =
      Except.ok (some (RespValue.simpleString s, t)) := by
  unfold decodeAux
  rw [parseRespLine_frame 43 s t (by norm_num) hU hN]
  rfl

theorem decodeStep_error (fuel : Nat) (s t : Bytes)
    (hU : isValidUtf8 s = true) (hN : noCrlf s = true) :
    decodeAux (fuel + 1) (45 :: (s ++ 13 :: 10 :: t)) =
      Except.ok (some (RespValue.error s, t)) := by
  unfold decodeAux
  rw [parseRespLine_frame 45 s t (by norm_num) hU hN]
  rfl

theorem decodeStep_int (fuel : Nat) (s t : Bytes)
    (hU : isValidUtf8 s = true) (hN : noCrlf s = true) :
    decodeAux (fuel + 1) (58 :: (s ++ 13 :: 10 :: t)) =
      match parseI64 s with
      | some i => Except.ok (some (RespValue.integer i, t))
      | none => Except.error "Invalid UTF-8" := by
  unfold decodeAux
  rw [parseRespLine_frame 58 s t (by norm_num) hU hN]
  rfl

theorem decodeStep_bulk (fuel : Nat) (s t : Bytes)
    (hU : isValidUtf8 s = true) (hN : noCrlf s = true) :
    decodeAux (fuel + 1) (36 :: (s ++ 13 :: 10 :: t)) =
      match parseI64 s with
      | none => Except.error "Invalid UTF-8"
      | some n =>
        if n = -1 then Except.ok (some (RespValue.bulkString none, t))
        else
          match digestStream ((n.emod (2 ^ 64)).toNat) t with
          | Except.error e => Except.error e
          | Except.ok none => Except.ok none
          | Except.ok (some br) => Except.ok (some (RespValue.bulkString (some br.1), br.2)) := by
  unfold decodeAux
  rw [parseRespLine_frame 36 s t (by norm_num) hU hN]
  rfl

theorem decodeStep_array (fuel : Nat) (s t : Bytes)
    (hU : isValidUtf8 s = true) (hN : noCrlf s = true) :
    decodeAux (fuel + 1) (42 :: (s ++ 13 :: 10 :: t)) =
      match parseI64 s with
      | none => Except.error "Invalid UTF-8"
      | some n => decodeArrayAux (decodeAux fuel) n.toNat t [] := by
  unfold decodeAux
  rw [parseRespLine_frame 42 s t (by norm_num) hU hN]
  rfl

theorem nodeCount_le_encLength (v : RespValue) :
    nodeCount v ≤ (encodeResp v).length := by
  induction v using RespValue.rec
    (motive_2 := fun vs => nodeCountList vs ≤ (encodeList vs).length) with
  | simpleString s => simp [nodeCount, encodeResp]
  | error s => simp [nodeCount, encodeResp]
  | integer i => simp [nodeCount, encodeResp]
  | bulkString b => cases b <;> simp [nodeCount, encodeResp]
  | array vs ih =>
    have h := natToDec_ne_nil vs.length
    simp only [nodeCount, encodeResp, List.length_cons, List.length_append, crlf]
    have : 0 < (natToDec vs.length).length := List.length_pos.mpr h
    simp at this ⊢
    omega
  | nil => simp [nodeCountList, encodeList]
  | cons v vs ihv ihs => simp [nodeCountList, encodeList]; omega

theorem decodeArrayAux_encode (fuel : Nat)
    (hP : ∀ v rest, wellFormedB v = true → nodeCount v ≤ fuel →
      decodeAux fuel (encodeResp v ++ rest) = Except.ok (some (v, rest))) :
    ∀ (vs : List RespValue) (acc : List RespValue) (rest : Bytes),
      wellFormedList vs = true → nodeCountList vs ≤ fuel →
      decodeArrayAux (decodeAux fuel) vs.length (encodeList vs ++ rest) acc =
        Except.ok (some (RespValue.array (acc.reverse ++ vs), rest)) := by
  intro vs
  induction vs with
  | nil =>
    intro acc rest _ _
    simp [encodeList, decodeArrayAux]
  | cons v vs' ih =>
    intro acc rest hwf hcnt
    rw [wellFormedList] at hwf
    rw [Bool.and_eq_true] at hwf
    rw [nodeCountList] at hcnt
    have hv : nodeCount v ≤ fuel := by
      have := one_le_nodeCount v
      omega
    have hform : encodeList (v :: vs') ++ rest = encodeResp v ++ (encodeList vs' ++ rest) := by
      rw [encodeList, List.append_assoc]
    rw [List.length_cons, hform]
    show (match decodeAux fuel (encodeResp v ++ (encodeList vs' ++ rest)) with
      | Except.error e => Except.error e
      | Except.ok none => Except.ok none
      | Except.ok (some vr) => decodeArrayAux (decodeAux fuel) vs'.length vr.2 (vr.1 :: acc)) =
      Except.ok (some (RespValue.array (acc.reverse ++ v :: vs'), rest))
    rw [hP v (encodeList vs' ++ rest) hwf.1 hv]
    show decodeArrayAux (decodeAux fuel) vs'.length (encodeList vs' ++ rest) (v :: acc) =
      Except.ok (some (RespValue.array (acc.reverse ++ v :: vs'), rest))
    rw [ih (v :: acc) rest hwf.2 (by omega)]
    simp

theorem decodeAux_encode : ∀ (fuel : Nat) (v : RespValue) (rest : Bytes),
    wellFormedB v = true → nodeCount v ≤ fuel →
    decodeAux fuel (encodeResp v ++ rest) = Except.ok (some (v, rest)) := by
  intro fuel
  induction fuel with
  | zero =>
    intro v rest _ hcnt
    have := one_le_nodeCount v
    omega
  | succ f ih =>
    intro v rest hwf hcnt
    cases v with
    | simpleString s =>
      rw [wellFormedB, Bool.and_eq_true] at hwf
      have hform : encodeResp (RespValue.simpleString s) ++ rest = 43 :: (s ++ 13 :: 10 :: rest) := by
        simp [encodeResp, crlf]
      rw [hform, decodeStep_simple f s rest hwf.1 hwf.2]
    | error s =>
      rw [wellFormedB, Bool.and_eq_true] at hwf
      have hform : encodeResp (RespValue.error s) ++ rest = 45 :: (s ++ 13 :: 10 :: rest) := by
        simp [encodeResp, crlf]
      rw [hform, decodeStep_error f s rest hwf.1 hwf.2]
    | integer i =>
      rw [wellFormedB] at hwf
      have hrange := of_decide_eq_true hwf
      have hform : encodeResp (RespValue.integer i) ++ rest =
          58 :: (intToDec i ++ 13 :: 10 :: rest) := by
        simp [encodeResp, crlf]
      rw [hform, decodeStep_int f _ rest (intToDec_utf8 i) (intToDec_noCrlf i),
        parseI64_intToDec i hrange.1 hrange.2]
    | bulkString b =>
      cases b with
      | none =>
        have hform : encodeResp (RespValue.bulkString none) ++ rest =
            36 :: ([45, 49] ++ 13 :: 10 :: rest) := by
          simp [encodeResp, crlf]
        rw [hform, decodeStep_bulk f [45, 49] rest (by decide) (by decide)]
        rfl
      | some d =>
        rw [wellFormedB] at hwf
        have hlen := of_decide_eq_true hwf
        have hform : encodeResp (RespValue.bulkString (some d)) ++ rest =
            36 :: (natToDec d.length ++ 13 :: 10 :: (d ++ 13 :: 10 :: rest)) := by
          simp [encodeResp, crlf]
        rw [hform, decodeStep_bulk f _ _ (natToDec_utf8 d.length) (natToDec_noCrlf d.length),
          parseI64_natToDec d.length (by omega)]
        have hne : ((d.length : Int)) ≠ -1 := by omega
        have hmod : (((d.length : Int)).emod (2 ^ 64)).toNat = d.length := by
          have h1 : ((d.length : Int)).emod (2 ^ 64) = (d.length : Int) % (2 ^ 64) := rfl
          rw [h1, Int.emod_eq_of_lt (by omega) (by omega)]
          omega
        show (if ((d.length : Int)) = -1 then
            Except.ok (some (RespValue.bulkString none, d ++ 13 :: 10 :: rest))
          else
            match digestStream ((((d.length : Int)).emod (2 ^ 64)).toNat) (d ++ 13 :: 10 :: rest) with
            | Except.error e => Except.error e
            | Except.ok none => Except.ok none
            | Except.ok (some br) => Except.ok (some (RespValue.bulkString (some br.1), br.2))) =
          Except.ok (some (RespValue.bulkString (some d), rest))
        rw [if_neg hne, hmod, digestStream_exact d rest]
    | array vs =>
      rw [wellFormedB, Bool.and_eq_true] at hwf
      rw [nodeCount] at hcnt
      have hform : encodeResp (RespValue.array vs) ++ rest =
          42 :: (natToDec vs.length ++ 13 :: 10 :: (encodeList vs ++ rest)) := by
        simp [encodeResp, crlf]
      have hlen := of_decide_eq_true hwf.1
      rw [hform, decodeStep_array f _ _ (natToDec_utf8 vs.length) (natToDec_noCrlf vs.length),
        parseI64_natToDec vs.length (by omega)]
      show decodeArrayAux (decodeAux f) ((vs.length : Int)).toNat (encodeList vs ++ rest) [] =
        Except.ok (some (RespValue.array vs, rest))
      rw [Int.toNat_natCast]
      have := decodeArrayAux_encode f ih vs [] rest hwf.2 (by omega)
      simpa using this

theorem RespCodec_decode_encode (v : RespValue) (rest : Bytes)
    (h : wellFormedB v = true) :
    RespCodec_decode (encodeResp v ++ rest) = Except.ok (some (v, rest)) := by
  unfold RespCodec_decode
  exact decodeAux_encode _ v rest h (by
    have h1 := nodeCount_le_encLength v
    have : (encodeResp v ++ rest).length = (encodeResp v).length + rest.length :=
      List.length_append _ _
    omega)

end RedisModel

namespace RedisModel

/-! ## Stream ordering lemmas -/

theorem streamIDlt_trans {a b c : StreamID} (h1 : StreamID.lt a b) (h2 : StreamID.lt b c) :
    StreamID.lt a c := by
  unfold StreamID.lt at *
  omega

theorem streamIDlt_asymm {a b : StreamID} (h : StreamID.lt a b) : ¬StreamID.lt b a := by
  unfold StreamID.lt at *
  omega

theorem streamIDlt_ne {a b : StreamID} (h : StreamID.lt a b) : a ≠ b := by
  intro hcontra
  subst hcontra
  unfold StreamID.lt at h
  omega

theorem entriesInsert_append (id : StreamID) (e : StreamEntry)
    (l : List (StreamID × StreamEntry)) (h : ∀ kv ∈ l, StreamID.lt kv.1 id) :
    entriesInsert id e l = l ++ [(id, e)] := by
  induction l with
  | nil => rfl
  | cons kv rest ih =>
    have hkv : StreamID.lt kv.1 id := h kv (List.mem_cons_self _ _)
    unfold entriesInsert
    rw [if_neg (streamIDlt_asymm hkv), if_neg (Ne.symm (streamIDlt_ne hkv))]
    rw [ih (fun x hx => h x (List.mem_cons_of_mem kv hx))]
    rfl

theorem prev_is_max (l : List (StreamID × StreamEntry)) (hs : streamIdsSorted l)
    (id : StreamID)
    (hlt : StreamID.lt (match l.getLast? with | some kv => kv.1 | none => ⟨0, 0⟩) id) :
    ∀ kv ∈ l, StreamID.lt kv.1 id := by
  induction l with
  | nil => simp
  | cons x rest ih =>
    unfold streamIdsSorted at hs ih
    rw [List.pairwise_cons] at hs
    intro kv hkv
    match hrest : rest with
    | [] =>
      rcases List.mem_cons.mp hkv with h | h
      · subst h
        simpa using hlt
      · simp at h
    | y :: rest' =>
      rw [show (x :: y :: rest').getLast? = (y :: rest').getLast? from
        List.getLast?_cons_cons] at hlt
      rcases List.mem_cons.mp hkv with h | h
      · subst h
        have hne : y :: rest' ≠ [] := by simp
        rw [List.getLast?_eq_getLast (y :: rest') hne] at hlt
        exact streamIDlt_trans (hs.1 _ (List.getLast_mem hne)) hlt
      · exact ih hs.2 hlt kv h

end RedisModel

namespace RedisModel

/-- Claim C4: a stored stream id is never `0-0`; a successful append's id is
strictly greater than the stream's top at append time and lands at the end of
the ordered entry list, preserving strict ascending order (so of any two
appended ids the later is the greater); appending `0-0` or any id not above
the top fails with an error. -/
theorem claim_C4_stream_ids_monotonic (s : RStream) (id : StreamID)
    (fields : List (Bytes × Bytes)) (hs : streamIdsSorted s.entries) :
    (∀ s', streamAppend s id fields = Except.ok s' →
      id ≠ ⟨0, 0⟩ ∧ StreamID.lt (streamPreviousId s) id ∧
      s'.entries = s.entries ++ [(id, StreamEntry.data id fields)] ∧
      streamIdsSorted s'.entries) ∧
    streamAppend s ⟨0, 0⟩ fields =
      Except.error "ERR The ID specified in XADD must be greater than 0-0" ∧
    (¬StreamID.lt (streamPreviousId s) id →
      ∃ e, streamAppend s id fields = Except.error e) := by
  refine ⟨?_, ?_, ?_⟩
  · intro s' hok
    by_cases h0 : id = ⟨0, 0⟩
    · simp [streamAppend, validateId, h0] at hok
    · by_cases hc : id.ms < (streamPreviousId s).ms ∨
          (id.ms = (streamPreviousId s).ms ∧ id.seq ≤ (streamPreviousId s).seq)
      · simp [streamAppend, validateId, h0, hc] at hok
      · have hlt : StreamID.lt (streamPreviousId s) id := by
          unfold StreamID.lt
          push_neg at hc
          omega
        have hall : ∀ kv ∈ s.entries, StreamID.lt kv.1 id :=
          prev_is_max s.entries hs id hlt
        have hins := entriesInsert_append id (StreamEntry.data id fields) s.entries hall
        simp [streamAppend, validateId, h0, hc] at hok
        refine ⟨h0, hlt, ?_, ?_⟩
        · rw [← hok, hins]
        · rw [← hok, hins]
          unfold streamIdsSorted at hs ⊢
          rw [List.pairwise_append]
          exact ⟨hs, List.pairwise_singleton _ _, fun a ha b hb => by
            rw [List.mem_singleton] at hb
            subst hb
            exact hall a ha⟩
  · simp [streamAppend, validateId]
  · intro hnlt
    by_cases h0 : id = ⟨0, 0⟩
    · subst h0
      exact ⟨"ERR The ID specified in XADD must be greater than 0-0",
        by simp [streamAppend, validateId]⟩
    · have hc : id.ms < (streamPreviousId s).ms ∨
          (id.ms = (streamPreviousId s).ms ∧ id.seq ≤ (streamPreviousId s).seq) := by
        unfold StreamID.lt at hnlt
        push_neg at hnlt
        omega
      exact ⟨"ERR The ID specified in XADD is equal or smaller than the target stream top item",
        by simp [streamAppend, validateId, h0, hc]⟩

/-- Witness for C4: an append of `1-0` onto the empty stream succeeds, lands at
the end, and keeps the order invariant; the hypotheses are discharged at the
concrete input. -/
theorem claim_C4_stream_ids_monotonic_witness :
    StreamID.mk 1 0 ≠ ⟨0, 0⟩ ∧
    StreamID.lt (streamPreviousId ⟨[]⟩) ⟨1, 0⟩ ∧
    (RStream.mk [(⟨1, 0⟩, StreamEntry.data ⟨1, 0⟩ [])]).entries =
      ([] : List (StreamID × StreamEntry)) ++ [(⟨1, 0⟩, StreamEntry.data ⟨1, 0⟩ [])] ∧
    streamIdsSorted (RStream.mk [(⟨1, 0⟩, StreamEntry.data ⟨1, 0⟩ [])]).entries :=
  (claim_C4_stream_ids_monotonic ⟨[]⟩ ⟨1, 0⟩ [] (by simp [streamIdsSorted])).1
    ⟨[(⟨1, 0⟩, StreamEntry.data ⟨1, 0⟩ [])]⟩ (by rfl)

end RedisModel

namespace RedisModel

/-- Claim C9: decoding the encoding of any well-formed protocol value yields
exactly that value and consumes exactly the encoded bytes (any trailing bytes
are left in the buffer); the absent bulk string encodes as `$-1` and decodes
back to the absent sentinel, which is distinct from the empty bulk string
`$0` with an empty payload. -/
theorem claim_C9_codec_roundtrip (v : RespValue) (rest : Bytes)
    (h : wellFormedB v = true) :
    RespCodec_decode (encodeResp v ++ rest) = Except.ok (some (v, rest)) ∧
    encodeResp (RespValue.bulkString none) = strBytes "$-1" ++ crlf ∧
    RespCodec_decode (strBytes "$-1" ++ crlf) =
      Except.ok (some (RespValue.bulkString none, [])) ∧
    encodeResp (RespValue.bulkString (some [])) = strBytes "$0" ++ crlf ++ crlf ∧
    encodeResp (RespValue.bulkString none) ≠ encodeResp (RespValue.bulkString (some [])) ∧
    RespValue.bulkString none ≠ RespValue.bulkString (some ([] : Bytes)) :=
  ⟨RespCodec_decode_encode v rest h, by rfl, by rfl, by rfl, by decide, by simp⟩

/-- Witness for C9 at a concrete nested value with a nonempty trailing
buffer. -/
theorem claim_C9_codec_roundtrip_witness :
    RespCodec_decode (encodeResp (RespValue.array [RespValue.bulkString (some (strBytes "a")),
        RespValue.integer (-5), RespValue.bulkString none,
        RespValue.simpleString (strBytes "OK")]) ++ [99]) =
      Except.ok (some (RespValue.array [RespValue.bulkString (some (strBytes "a")),
        RespValue.integer (-5), RespValue.bulkString none,
        RespValue.simpleString (strBytes "OK")], [99])) :=
  (claim_C9_codec_roundtrip (RespValue.array [RespValue.bulkString (some (strBytes "a")),
    RespValue.integer (-5), RespValue.bulkString none,
    RespValue.simpleString (strBytes "OK")]) [99] (by rfl)).1

/-- Claim C10: `GET` on a live entry holding a container value (list, stream
or channel) returns the empty bulk string — not a type error and not the
absent sentinel — and this reply coincides with `GET` of a live entry holding
the empty text value, so the two are indistinguishable from the reply. -/
theorem storeGetValue_live (now : Nat) (ks : Keyspace) (key : Bytes) (e : Entry)
    (hGet : alGet key ks = some e)
    (hLive : ∀ exp, e.expiresAt = some exp → now < exp) :
    storeGetValue now ks key = some e.value := by
  unfold storeGetValue
  rw [hGet]
  show (match e.expiresAt with
    | some expiry => if now ≥ expiry then none else some e.value
    | none => some e.value) = some e.value
  cases hexp : e.expiresAt with
  | none => rfl
  | some exp =>
    have := hLive exp hexp
    show (if now ≥ exp then none else some e.value) = some e.value
    rw [if_neg (by omega)]

theorem claim_C10_get_container_empty_bulk (now : Nat) (ks : Keyspace) (key : Bytes)
    (e : Entry) (hGet : alGet key ks = some e)
    (hLive : ∀ exp, e.expiresAt = some exp → now < exp)
    (hCont : isContainerValue e.value) :
    storeGet now ks key = RespValue.bulkString (some []) ∧
    (∀ msg, storeGet now ks key ≠ RespValue.error msg) ∧
    storeGet now ks key ≠ RespValue.bulkString none ∧
    (∀ ks' key' e', alGet key' ks' = some e' → e'.expiresAt = none →
      e'.value = RedisValue.text [] → storeGet now ks' key' = storeGet now ks key) := by
  have hval : storeGetValue now ks key = some e.value :=
    storeGetValue_live now ks key e hGet hLive
  have hmain : storeGet now ks key = RespValue.bulkString (some []) := by
    unfold storeGet
    rw [hval]
    match hv : e.value with
    | RedisValue.list _ => rfl
    | RedisValue.stream _ => rfl
    | RedisValue.channel _ => rfl
    | RedisValue.text t => rw [hv] at hCont; simp [isContainerValue] at hCont
    | RedisValue.queue _ => rw [hv] at hCont
    | RedisValue.zrank _ => rw [hv] at hCont
  refine ⟨hmain, ?_, ?_, ?_⟩
  · intro msg
    rw [hmain]
    simp
  · rw [hmain]
    simp
  · intro ks' key' e' hGet' hExp' hText'
    have hval' : storeGetValue now ks' key' = some e'.value :=
      storeGetValue_live now ks' key' e' hGet' (fun exp h => by rw [hExp'] at h; simp at h)
    unfold storeGet
    rw [hval', hval, hText']
    match hv : e.value with
    | RedisValue.list _ => rfl
    | RedisValue.stream _ => rfl
    | RedisValue.channel _ => rfl
    | RedisValue.text t => rw [hv] at hCont; simp [isContainerValue] at hCont
    | RedisValue.queue _ => rw [hv] at hCont
    | RedisValue.zrank _ => rw [hv] at hCont

/-- Witness for C10 at a concrete channel-typed entry. -/
theorem claim_C10_get_container_empty_bulk_witness :
    storeGet 7 [(strBytes "k", { value := RedisValue.channel ⟨[]⟩, expiresAt := none })]
      (strBytes "k") = RespValue.bulkString (some []) :=
  (claim_C10_get_container_empty_bulk 7
    [(strBytes "k", { value := RedisValue.channel ⟨[]⟩, expiresAt := none })]
    (strBytes "k") { value := RedisValue.channel ⟨[]⟩, expiresAt := none }
    (by rfl) (fun exp h => by simp at h) (by simp [isContainerValue])).1

end RedisModel

namespace RedisModel

/-- Counterexample to claim C8: the key holds `"5"` with expiry instant 5; at
call time 10 the entry is expired (`GET` already answers the absent sentinel),
yet `INCR` replies 6 — the stale value incremented — instead of storing `"1"`
and replying 1, and it writes back `"6"` keeping the old expiry. -/
theorem claim_C8_incr_expired_counterexample :
    storeGet 10 [(strBytes "k", { value := RedisValue.text (strBytes "5"), expiresAt := some 5 })]
      (strBytes "k") = RespValue.bulkString none ∧
    storeIncr [(strBytes "k", { value := RedisValue.text (strBytes "5"), expiresAt := some 5 })]
      (strBytes "k") =
      some (RespValue.integer 6,
        [(strBytes "k", { value := RedisValue.text (strBytes "6"), expiresAt := some 5 })]) ∧
    RespValue.integer 6 ≠ RespValue.integer 1 :=
  ⟨by rfl, by rfl, by simp⟩

/-- Reduction of `storeIncr` on a key holding a text value: the shared step of
the amended-claim proof. -/
theorem storeIncr_text_step (ks : Keyspace) (key : Bytes) (e : Entry) (v : Bytes)
    (hGet : alGet key ks = some e) (hText : e.value = RedisValue.text v) :
    storeIncr ks key =
      (if isValidUtf8 v then
        match parseI64 v with
        | some n =>
          if n + 1 < 2 ^ 63 then
            some (RespValue.integer (n + 1),
              alInsert key { e with value := RedisValue.text (intToDec (n + 1)) } ks)
          else none
        | none =>
          some (RespValue.error (strBytes "ERR value is not an integer or out of range"), ks)
      else some (RespValue.error (strBytes "ERR value is not an integer or out of range"), ks)) := by
  unfold storeIncr
  rw [hGet]
  show (match e.value with
    | RedisValue.text v =>
      if isValidUtf8 v then
        match parseI64 v with
        | some n =>
          if n + 1 < 2 ^ 63 then
            some (RespValue.integer (n + 1),
              alInsert key { e with value := RedisValue.text (intToDec (n + 1)) } ks)
          else none
        | none =>
          some (RespValue.error (strBytes "ERR value is not an integer or out of range"), ks)
      else some (RespValue.error (strBytes "ERR value is not an integer or out of range"), ks)
    | _ => some (RespValue.error (strBytes "ERR value is not an integer or out of range"), ks)) = _
  rw [hText]

/-- Claim C8 as amended: `INCR` on an absent key stores `"1"` and replies the
integer 1; on any key present in the raw map — expired or not, the expiry is
never consulted — holding a text value that parses as an `i64` below
`i64::MAX`, it stores and replies the successor (keeping the entry's expiry);
at exactly `i64::MAX` the source's `i64` increment overflows (a panic under
debug assertions, a wrap in release) and no successor reply is produced; and
on a non-UTF-8 or non-integer text value it replies the protocol error and
leaves the keyspace unchanged. -/
theorem claim_C8_incr_amended (ks : Keyspace) (key : Bytes) :
    (alGet key ks = none →
      storeIncr ks key = some (RespValue.integer 1,
        alInsert key { value := RedisValue.text (strBytes "1"), expiresAt := none } ks)) ∧
    (∀ e v, alGet key ks = some e → e.value = RedisValue.text v →
      ∀ n, isValidUtf8 v = true → parseI64 v = some n → n + 1 < 2 ^ 63 →
        storeIncr ks key = some (RespValue.integer (n + 1),
          alInsert key { e with value := RedisValue.text (intToDec (n + 1)) } ks)) ∧
    (∀ e v, alGet key ks = some e → e.value = RedisValue.text v →
      ∀ n, isValidUtf8 v = true → parseI64 v = some n → ¬(n + 1 < 2 ^ 63) →
        storeIncr ks key = none) ∧
    (∀ e v, alGet key ks = some e → e.value = RedisValue.text v →
      (isValidUtf8 v = false ∨ parseI64 v = none) →
      storeIncr ks key =
        some (RespValue.error (strBytes "ERR value is not an integer or out of range"), ks)) := by
  refine ⟨?_, ?_, ?_, ?_⟩
  · intro hnone
    unfold storeIncr
    rw [hnone]
  · intro e v hGet hText n hU hP hlt
    rw [storeIncr_text_step ks key e v hGet hText, if_pos hU, hP]
    show (if n + 1 < 2 ^ 63 then
        some (RespValue.integer (n + 1),
          alInsert key { e with value := RedisValue.text (intToDec (n + 1)) } ks)
      else none) = _
    rw [if_pos hlt]
  · intro e v hGet hText n hU hP hnlt
    rw [storeIncr_text_step ks key e v hGet hText, if_pos hU, hP]
    show (if n + 1 < 2 ^ 63 then
        some (RespValue.integer (n + 1),
          alInsert key { e with value := RedisValue.text (intToDec (n + 1)) } ks)
      else none) = none
    rw [if_neg hnlt]
  · intro e v hGet hText hbad
    rw [storeIncr_text_step ks key e v hGet hText]
    rcases hbad with hU | hP
    · rw [if_neg (by rw [hU]; intro h; exact Bool.false_ne_true h)]
    · cases hU : isValidUtf8 v with
      | false => rw [if_neg (by intro h; exact Bool.false_ne_true (hU ▸ h))]
      | true => rw [if_pos rfl, hP]

/-- Witness for C8 (amended): `INCR` on the absent key of the empty keyspace
stores `"1"` and replies 1. -/
theorem claim_C8_incr_amended_witness :
    storeIncr [] (strBytes "k") = some (RespValue.integer 1,
      alInsert (strBytes "k") { value := RedisValue.text (strBytes "1"), expiresAt := none } []) :=
  (claim_C8_incr_amended [] (strBytes "k")).1 (by rfl)

end RedisModel

namespace RedisModel

/-- Counterexample to claim C7: in Multi mode a `MULTI` command is not
answered with an error frame — it is appended to the queue and answered
`QUEUED`, exactly like any other non-EXEC/DISCARD command. -/
theorem claim_C7_nested_multi_counterexample :
    handleMultiMode (fun _ _ => none) { queued := [] } RespCommand.multi [] =
      ([RespValue.bulkString (some (strBytes "QUEUED"))], ClientMode.multi,
        { queued := [(RespCommand.multi, [])] }) ∧
    (∀ msg, RespValue.bulkString (some (strBytes "QUEUED")) ≠ RespValue.error msg) ∧
    [(RespCommand.multi, ([] : Bytes))] ≠ [] :=
  ⟨by rfl, fun msg => by simp, by simp⟩

/-- Claim C7 as amended: in Multi mode every command other than `EXEC` and
`DISCARD` — `MULTI` included — is appended to the queue and answered `QUEUED`
(the nested-MULTI error frame arises only when `EXEC` later executes the
queued `MULTI` through the dispatcher); `EXEC` executes the queued commands in
order, collects their replies into one array matching queue order, clears the
queue and returns the session to Normal mode; `DISCARD` clears the queue,
replies OK and returns to Normal mode. -/
theorem claim_C7_multi_mode_amended (process : RespCommand → Bytes → Option RespValue)
    (q : List (RespCommand × Bytes)) (c : RespCommand) (b : Bytes) :
    (c ≠ RespCommand.exec → c ≠ RespCommand.discard →
      handleMultiMode process { queued := q } c b =
        ([RespValue.bulkString (some (strBytes "QUEUED"))], ClientMode.multi,
          { queued := q ++ [(c, b)] })) ∧
    handleMultiMode process { queued := q } RespCommand.exec b =
      ([RespValue.array (q.filterMap (fun qb => process qb.1 qb.2))], ClientMode.normal,
        { queued := [] }) ∧
    handleMultiMode process { queued := q } RespCommand.discard b =
      ([RespValue.simpleString (strBytes "OK")], ClientMode.normal, { queued := [] }) := by
  refine ⟨?_, ?_, ?_⟩
  · intro hexec hdiscard
    cases c <;> first
      | rfl
      | exact absurd rfl hexec
      | exact absurd rfl hdiscard
  · cases q <;> rfl
  · rfl

/-- Witness for C7 (amended): a `PING` queued in Multi mode at a concrete
session, with the hypotheses discharged. -/
theorem claim_C7_multi_mode_amended_witness :
    handleMultiMode (fun _ _ => some nestedMultiReply) { queued := [] } RespCommand.ping [] =
      ([RespValue.bulkString (some (strBytes "QUEUED"))], ClientMode.multi,
        { queued := [] ++ [(RespCommand.ping, [])] }) :=
  (claim_C7_multi_mode_amended (fun _ _ => some nestedMultiReply) [] RespCommand.ping []).1
    (by simp) (by simp)

end RedisModel

namespace RedisModel

/-- Claim C1 evaluated at its failing input: the loader keeps a record whose
file expiry (1000 ms) is in the future at load time 500 and drops it when it
is in the past (load time 2000) — but the surviving record is seeded through
`Store::set` with the file's absolute expiry instant passed as a relative TTL,
so the entry's stored expiry is `500 + 1000 = 1500`, and a `GET` at wall time
1000 — at and past the file's expiry instant — still returns the value
instead of the absent sentinel. -/
theorem claim_C1_rdb_expiry_misapplied :
    rdbLoad 500 rdbFileW = Except.ok [(strBytes "k", strBytes "v", some 1000)] ∧
    rdbLoad 2000 rdbFileW = Except.ok [] ∧
    alGet (strBytes "k") (mainSeed 500 [(strBytes "k", strBytes "v", some 1000)]) =
      some { value := RedisValue.text (strBytes "v"), expiresAt := some 1500 } ∧
    storeGet 1000 (mainSeed 500 [(strBytes "k", strBytes "v", some 1000)]) (strBytes "k") =
      RespValue.bulkString (some (strBytes "v")) ∧
    RespValue.bulkString (some (strBytes "v")) ≠ RespValue.bulkString none :=
  ⟨by rfl, by rfl, by rfl, by rfl, by simp⟩

/-- Claim C2 evaluated at its failing input: after `ZADD k 1 a` followed by
`ZREM k a`, the member `a` is gone from the score-1 bucket but still present
in the member-to-score inverse map with score 1, so the two structures are
mutually inconsistent. -/
theorem claim_C2_zrem_breaks_invariant :
    storeZadd [] (strBytes "k") 1 (strBytes "a") =
      some (1, [(strBytes "k",
        { value := RedisValue.zrank ⟨[(1, [strBytes "a"])], [(strBytes "a", 1)]⟩, expiresAt := none })]) ∧
    storeZrem [(strBytes "k",
        { value := RedisValue.zrank ⟨[(1, [strBytes "a"])], [(strBytes "a", 1)]⟩, expiresAt := none })]
      (strBytes "k") (strBytes "a") =
      some (some 1, [(strBytes "k",
        { value := RedisValue.zrank ⟨[(1, [])], [(strBytes "a", 1)]⟩, expiresAt := none })]) ∧
    ¬zrankConsistent ⟨[(1, [])], [(strBytes "a", 1)]⟩ := by
  refine ⟨by rfl, by rfl, ?_⟩
  intro h
  have h2 := (h.1 (strBytes "a") 1 (by rfl) (1, []) (by simp)).mpr rfl
  simp at h2

/-- Claim C3 evaluated at its failing input: an `XADD s 0-0 f v` on a fresh
store replies the domain error and leaves the keyspace unchanged, but the
handler has already appended the raw frame bytes to the replication log, so
the log no longer equals the concatenation (sum of byte lengths) of the
mutating frames actually applied — which is none. -/
theorem claim_C3_failed_xadd_grows_log :
    (xaddCommand 99 { keyspace := [], log := [] } (strBytes "s") (strBytes "0-0")
        [(strBytes "f", strBytes "v")] xaddFrame).1 =
      RespValue.error (strBytes "ERR The ID specified in XADD must be greater than 0-0") ∧
    (xaddCommand 99 { keyspace := [], log := [] } (strBytes "s") (strBytes "0-0")
        [(strBytes "f", strBytes "v")] xaddFrame).2.keyspace = [] ∧
    (xaddCommand 99 { keyspace := [], log := [] } (strBytes "s") (strBytes "0-0")
        [(strBytes "f", strBytes "v")] xaddFrame).2.log = xaddFrame ∧
    xaddFrame ≠ [] :=
  ⟨by rfl, by rfl, by rfl, by decide⟩

/-- Claim C5 evaluated at its failing input: a sorted set holding the two
members `a`, `b` at the single score 1 answers `ZRANGE k 0 -1` with only
`[a]`, because the range indices are normalized against the number of distinct
score buckets (1) rather than the member count (2). -/
theorem claim_C5_zrange_bucket_length :
    storeZadd [] (strBytes "k") 1 (strBytes "a") =
      some (1, [(strBytes "k",
        { value := RedisValue.zrank ⟨[(1, [strBytes "a"])], [(strBytes "a", 1)]⟩, expiresAt := none })]) ∧
    storeZadd [(strBytes "k",
        { value := RedisValue.zrank ⟨[(1, [strBytes "a"])], [(strBytes "a", 1)]⟩, expiresAt := none })]
      (strBytes "k") 1 (strBytes "b") =
      some (1, [(strBytes "k",
        { value := RedisValue.zrank ⟨[(1, [strBytes "a", strBytes "b"])], [(strBytes "a", 1), (strBytes "b", 1)]⟩, expiresAt := none })]) ∧
    storeZrange [(strBytes "k",
        { value := RedisValue.zrank ⟨[(1, [strBytes "a", strBytes "b"])], [(strBytes "a", 1), (strBytes "b", 1)]⟩, expiresAt := none })]
      (strBytes "k") 0 (-1) = some [strBytes "a"] ∧
    [strBytes "a"] ≠ [strBytes "a", strBytes "b"] :=
  ⟨by rfl, by rfl, by rfl, by simp⟩

/-- Claim C6 evaluated at its failing input: `LPOP k 2` on a one-element list
faults (the unclamped `drain(..amount)` panics), while `LPOP k 1` pops the
element and `LPOP` on an absent key returns the absent sentinel without
fault. -/
theorem claim_C6_lpop_over_length_panics :
    storeLpop [(strBytes "k", { value := RedisValue.list ⟨[strBytes "a"]⟩, expiresAt := none })]
      (strBytes "k") 2 = none ∧
    storeLpop [(strBytes "k", { value := RedisValue.list ⟨[strBytes "a"]⟩, expiresAt := none })]
      (strBytes "k") 1 =
      some (Except.ok (some [strBytes "a"]),
        [(strBytes "k", { value := RedisValue.list ⟨[]⟩, expiresAt := none })]) ∧
    storeLpop [] (strBytes "k") 5 = some (Except.ok none, []) :=
  ⟨by rfl, by rfl, by rfl⟩

end RedisModel
